import Mathlib

/-!
Verification of the VALERA pre-production suite (a browser-based
storyboarding app).  The development shallowly embeds, from the TypeScript
sources, the AI-gateway credential lifecycle and retry executor
(`services/geminiService.ts`), the bundle-export pipeline and its
filesystem-safe naming (`App.tsx`), the image-response scan, the
prompt-enhancement fallback logic, and the boot-time demo-seed
normalization, and proves the behavioral properties stated about them.
-/

namespace Valera

/-! ### JavaScript string primitives

The gateway inspects error messages with `String.prototype.includes` and
keys with `String.prototype.trim`; both are modelled here over `List Char`
so that every definition evaluates by kernel reduction. -/

/-- Does the first list occur as a leading segment of the second? -/
def startsWithChars : List Char → List Char → Bool
  | [], _ => true
  | _ :: _, [] => false
  | n :: ns, h :: hs => n == h && startsWithChars ns hs

/-- Does `needle` occur contiguously inside `hay`? -/
def charsInclude (needle : List Char) : List Char → Bool
  | [] => needle.isEmpty
  | c :: cs => startsWithChars needle (c :: cs) || charsInclude needle cs

/-- `hay.includes(needle)` (JavaScript `String.prototype.includes`). -/
def strIncludes (hay needle : String) : Bool :=
  charsInclude needle.toList hay.toList

/-- The JavaScript `\s` whitespace class, restricted to the characters that
can actually occur in the strings this app manipulates (ASCII whitespace
plus NBSP and BOM). -/
def jsWhitespace (c : Char) : Bool :=
  c == ' ' || c == '\t' || c == '\n' || c == '\r' ||
  c == '\x0b' || c == '\x0c' || c == '\u00A0' || c == '\uFEFF'

/-- `s.trim()` (JavaScript): strip whitespace from both ends. -/
def jsTrim (s : String) : String :=
  String.mk (((s.toList.dropWhile jsWhitespace).reverse.dropWhile jsWhitespace).reverse)

/-! ### Retry executor (`retryOperation` in `geminiService.ts`) -/

/-- An error thrown by an upstream Gemini call, as far as the retry helper
inspects it: an optional `message` string and an optional numeric
`status`. -/
structure ApiError where
  message : Option String := none
  status : Option Nat := none
deriving DecidableEq, Repr

/-- `const isQuota = error.message?.includes('429') || error.status === 429`. -/
def isQuota (e : ApiError) : Bool :=
  (match e.message with
   | some m => strIncludes m "429"
   | none => false) || e.status == some 429

/-- `const isServer = error.message?.includes('503') || error.status === 503
|| error.status === 500`. -/
def isServer (e : ApiError) : Bool :=
  (match e.message with
   | some m => strIncludes m "503"
   | none => false) || e.status == some 503 || e.status == some 500

/-- The retry condition `isQuota || isServer` of `retryOperation`. -/
def retryableErr (e : ApiError) : Bool := isQuota e || isServer e

/-- The outcome of a single attempt of the wrapped asynchronous operation. -/
inductive Outcome (T : Type) where
  | ok (value : T)
  | err (error : ApiError)

/-- Shallow embedding of `retryOperation(operation, retries = 3, delay = 2000)`.
The wrapped operation is modelled as a function from the attempt index (so
that consecutive attempts may have different outcomes); the result is paired
with the ordered list of delays (`await wait(delay)`) performed, so the
number of attempts made is the length of that list plus one.  Mirrors the
source: on failure, if `(isQuota || isServer) && retries > 0`, wait `delay`
and recurse with `retries - 1` and `delay * 2`; otherwise rethrow. -/
def retryOperation {T : Type} (op : Nat → Outcome T) (retries delay attempt : Nat) :
    Except ApiError T × List Nat :=
  match op attempt with
  | .ok t => (.ok t, [])
  | .err e =>
    -- if ((isQuota || isServer) && retries > 0) { await wait(delay); return retryOperation(operation, retries - 1, delay * 2); }
    if h : retryableErr e = true ∧ 0 < retries then
      let rest := retryOperation op (retries - 1) (delay * 2) (attempt + 1)
      (rest.1, delay :: rest.2)
    else (.error e, [])
termination_by retries
decreasing_by exact Nat.sub_lt h.2 Nat.one_pos

/-! ### Claims C1 and C2: retry policy -/

/-- Claim C1: with the default policy (`retries = 3`, `delay = 2000`), an
operation that fails with a retryable error (429 / 500 / 503) exactly twice
and then succeeds is attempted exactly 3 times (the wait list has length 2),
waits 2000 ms before the second attempt and 4000 ms before the third, and
the success value is returned.  Moreover the default policy allows at most
3 retries with delays doubling 2000 → 4000 → 8000: if every attempt fails
with a retryable error, exactly the waits 2000, 4000, 8000 are performed
(4 attempts) and the last error propagates. -/
theorem retry_backoff_policy {T : Type} (op : Nat → Outcome T) :
    (∀ (e0 e1 : ApiError) (t : T),
      op 0 = .err e0 → retryableErr e0 = true →
      op 1 = .err e1 → retryableErr e1 = true →
      op 2 = .ok t →
      retryOperation op 3 2000 0 = (.ok t, [2000, 4000])) ∧
    (∀ (e0 e1 e2 e3 : ApiError),
      op 0 = .err e0 → retryableErr e0 = true →
      op 1 = .err e1 → retryableErr e1 = true →
      op 2 = .err e2 → retryableErr e2 = true →
      op 3 = .err e3 →
      retryOperation op 3 2000 0 = (.error e3, [2000, 4000, 8000])) := by
  constructor
  · intro e0 e1 t h0 hr0 h1 hr1 h2
    simp [retryOperation, h0, hr0, h1, hr1, h2]
  · intro e0 e1 e2 e3 h0 hr0 h1 hr1 h2 hr2 h3
    simp [retryOperation, h0, hr0, h1, hr1, h2, hr2, h3]

/-- Witness for C1: a concrete operation failing twice with a 429 before
succeeding is attempted three times, with waits 2000 and 4000 ms. -/
theorem retry_backoff_policy_witness :
    retryOperation (fun n => if n < 2 then Outcome.err ⟨some "429", none⟩ else Outcome.ok 7)
        3 2000 0 = (.ok 7, [2000, 4000]) :=
  (retry_backoff_policy (fun n => if n < 2 then Outcome.err ⟨some "429", none⟩ else Outcome.ok 7)).1
    ⟨some "429", none⟩ ⟨some "429", none⟩ 7 rfl (by decide) rfl (by decide) rfl

/-- Claim C2: a failure is retried iff it satisfies the retry condition
(`isQuota || isServer`, i.e. a 429 rate-limit signal or a 500/503 server
signal): a non-retryable first failure makes exactly one attempt, performs
no wait, and propagates the very same error; a retryable first failure
waits exactly 2000 ms and continues with the second attempt under the
halved retry budget and doubled delay. -/
theorem retry_only_retryable {T : Type} (op : Nat → Outcome T) :
    (∀ e : ApiError, op 0 = .err e → retryableErr e = false →
      retryOperation op 3 2000 0 = (.error e, [])) ∧
    (∀ e : ApiError, op 0 = .err e → retryableErr e = true →
      retryOperation op 3 2000 0 =
        ((retryOperation op 2 4000 1).1, 2000 :: (retryOperation op 2 4000 1).2)) := by
  constructor
  · intro e h0 hr
    simp [retryOperation, h0, hr]
  · intro e h0 hr
    simp [retryOperation, h0, hr]

/-- Witness for C2: a 400-status failure (neither 429 nor 500/503) is
attempted once, performs no wait, and the error propagates unchanged. -/
theorem retry_only_retryable_witness :
    retryOperation (fun _ => (Outcome.err ⟨some "Bad Request", some 400⟩ : Outcome Nat))
        3 2000 0 = (.error ⟨some "Bad Request", some 400⟩, []) :=
  (retry_only_retryable (fun _ => (Outcome.err ⟨some "Bad Request", some 400⟩ : Outcome Nat))).1
    ⟨some "Bad Request", some 400⟩ rfl (by decide)

/-! ### AI Gateway credential lifecycle (`geminiService.ts`)

The module state consists of the `localStorage` entry under
`valera_api_key` and the singleton `let clientInstance`.  The environment
key `process.env.API_KEY` never changes within a page session and is
passed as a separate parameter. -/

/-- The Gemini client, summarized by the key it was constructed from
(`new GoogleGenAI({ apiKey })`). -/
structure Client where
  apiKey : String
deriving DecidableEq, Repr

/-- Mutable module state of the gateway: the stored key and the cached
client.  The type makes the source's invariant visible: there is a single
`clientInstance` variable, so at most one client is ever cached. -/
structure GatewayState where
  localKey : Option String
  clientInstance : Option Client
deriving DecidableEq, Repr

/-- `throw new Error("API Key is missing. Please set it in Settings.")`. -/
def missingKeyMsg : String := "API Key is missing. Please set it in Settings."

/-- JS truthiness-plus-trim test `envKey && envKey.trim().length > 0`
(an absent or empty key is falsy, and a whitespace-only key fails the
trimmed-length check). -/
def envKeyUsable : Option String → Bool
  | none => false
  | some e => decide (0 < (jsTrim e).length)

/-- `hasValidKey`: a usable key exists in the environment or in local
storage (`!!((envKey && envKey.trim().length > 0) || (localKey &&
localKey.trim().length > 0))`). -/
def hasValidKey (env : Option String) (s : GatewayState) : Bool :=
  envKeyUsable env ||
    (match s.localKey with
     | some l => decide (0 < (jsTrim l).length)
     | none => false)

/-- `saveApiKey`: a blank key is ignored (`if (!key || key.trim() === '')
return`); otherwise the trimmed key is written to local storage and the
cached client is eagerly rebuilt from it. -/
def saveApiKey (key : String) (s : GatewayState) : GatewayState :=
  if key == "" || jsTrim key == "" then s
  else { localKey := some (jsTrim key), clientInstance := some ⟨jsTrim key⟩ }

/-- `clearApiKey`: remove the stored key and null the cached client. -/
def clearApiKey (_s : GatewayState) : GatewayState :=
  { localKey := none, clientInstance := none }

/-- `getClient`: return the cached client if present; otherwise resolve
`const apiKey = (envKey && envKey.trim().length > 0) ? envKey : localKey`,
fail with the missing-key error when the result is falsy (`if (!apiKey)`
— absent or the empty string), and otherwise build and cache a client.
The error branch constructs no client and performs no network call. -/
def getClient (env : Option String) (s : GatewayState) :
    Except String (Client × GatewayState) :=
  match s.clientInstance with
  | some c => .ok (c, s)
  | none =>
    let apiKey : Option String := if envKeyUsable env then env else s.localKey
    match apiKey with
    | none => .error missingKeyMsg
    | some k =>
      if k == "" then .error missingKeyMsg
      else .ok (⟨k⟩, { s with clientInstance := some (⟨k⟩ : Client) })

/-- The operations that can touch the gateway state during a session. -/
inductive GatewayOp where
  | save (key : String)
  | clear
  | acquire

/-- Effect of one gateway operation on the module state (an `acquire` that
fails leaves the state unchanged). -/
def applyOp (env : Option String) (s : GatewayState) : GatewayOp → GatewayState
  | .save key => saveApiKey key s
  | .clear => clearApiKey s
  | .acquire =>
    match getClient env s with
    | .ok (_, s2) => s2
    | .error _ => s

/-- States reachable in a page session: local storage may start with any
content (it persists across sessions), while `clientInstance` starts as
`null`. -/
def runOps (env : Option String) (localKey0 : Option String) (ops : List GatewayOp) :
    GatewayState :=
  ops.foldl (applyOp env) ⟨localKey0, none⟩

/-- A cached client only ever exists when some key can back it: either the
environment key is usable or local storage holds a non-empty string. -/
def keyBacked (env : Option String) (s : GatewayState) : Prop :=
  s.clientInstance = none ∨ envKeyUsable env = true ∨
    ∃ l, s.localKey = some l ∧ l ≠ ""

theorem keyBacked_applyOp (env : Option String) (s : GatewayState) (o : GatewayOp)
    (h : keyBacked env s) : keyBacked env (applyOp env s o) := by
  obtain ⟨lk, ci⟩ := s
  cases o with
  | save key =>
    by_cases hk : (key == "" || jsTrim key == "") = true
    · simpa [applyOp, saveApiKey, hk] using h
    · simp only [Bool.or_eq_true, beq_iff_eq, not_or] at hk
      exact Or.inr (Or.inr ⟨jsTrim key,
        by simp [applyOp, saveApiKey, hk.1, hk.2], hk.2⟩)
  | clear => exact Or.inl rfl
  | acquire =>
    cases ci with
    | some c => simpa [applyOp, getClient] using h
    | none =>
      by_cases henv : envKeyUsable env = true
      · exact Or.inr (Or.inl henv)
      · cases lk with
        | none => exact Or.inl (by simp [applyOp, getClient, henv])
        | some l =>
          by_cases he : (l == "") = true
          · exact Or.inl (by simp [applyOp, getClient, henv, he])
          · refine Or.inr (Or.inr ⟨l, ?_, by simpa using he⟩)
            simp [applyOp, getClient, henv, he]

theorem keyBacked_runOps (env : Option String) (localKey0 : Option String)
    (ops : List GatewayOp) : keyBacked env (runOps env localKey0 ops) := by
  suffices h : ∀ (s : GatewayState), keyBacked env s →
      keyBacked env (ops.foldl (applyOp env) s) by
    exact h ⟨localKey0, none⟩ (Or.inl rfl)
  induction ops with
  | nil => intro s hs; exact hs
  | cons o rest ih =>
    intro s hs
    exact ih (applyOp env s o) (keyBacked_applyOp env s o hs)

/-! ### Claims C3, C4, C5: credential resolution and cache maintenance -/

/-- Claim C3: in any reachable gateway state (any sequence of save / clear /
acquire operations from a fresh page load, with arbitrary pre-existing local
storage), if the environment key is absent or blank after trimming and the
stored key is absent or the empty string, then acquiring a client fails with
the missing-credential error.  In the model `getClient` returns this error
without constructing a client, i.e. before any network call could be
attempted. -/
theorem missing_credential_fails (env localKey0 : Option String) (ops : List GatewayOp) :
    envKeyUsable env = false →
    ((runOps env localKey0 ops).localKey = none ∨
      (runOps env localKey0 ops).localKey = some "") →
    getClient env (runOps env localKey0 ops) = .error missingKeyMsg := by
  intro henv hlocal
  have hb := keyBacked_runOps env localKey0 ops
  have hci : (runOps env localKey0 ops).clientInstance = none := by
    rcases hb with h1 | h2 | ⟨l, hl, hne⟩
    · exact h1
    · rw [henv] at h2; cases h2
    · rcases hlocal with h | h
      · rw [h] at hl; cases hl
      · rw [h] at hl
        injection hl with hl2
        exact absurd hl2.symm hne
  rcases hlocal with h | h
  · simp [getClient, hci, henv, h]
  · simp [getClient, hci, henv, h]

/-- Witness for C3: with no environment key, empty local storage and no
prior operations, acquisition fails with the missing-key error. -/
theorem missing_credential_fails_witness :
    envKeyUsable none = false ∧
    ((runOps none none []).localKey = none ∨ (runOps none none []).localKey = some "") ∧
    getClient none (runOps none none []) = .error missingKeyMsg :=
  ⟨rfl, Or.inl rfl, missing_credential_fails none none [] rfl (Or.inl rfl)⟩

/-- Counterexample to claim C4 as stated: environment-key precedence does
not hold on every client-acquisition request.  With a present, non-empty
environment key, after `saveApiKey("user-key")` (which eagerly caches a
client built from the saved key) the next acquisition returns the cached
client built from the *stored* key, not from the environment key. -/
theorem env_key_precedence_cex :
    envKeyUsable (some "ENV_KEY") = true ∧
    getClient (some "ENV_KEY") (runOps (some "ENV_KEY") none [GatewayOp.save "user-key"]) =
      .ok (⟨"user-key"⟩, ⟨some "user-key", some ⟨"user-key"⟩⟩) ∧
    ("user-key" : String) ≠ "ENV_KEY" :=
  ⟨by decide, rfl, by decide⟩

/-- Claim C4 (amended): environment-key precedence holds at credential
*resolution*, i.e. whenever no client is cached: if the environment key is
present and non-blank, the client is built from it (taking precedence over
any stored key); only when the environment key is absent or blank is the
stored key used.  A cached client — in particular one eagerly built from
the stored key by `saveApiKey` — is returned as-is. -/
theorem env_key_precedence_when_uncached (env : Option String) (s : GatewayState) :
    s.clientInstance = none →
    ((∀ e : String, env = some e → envKeyUsable env = true →
        getClient env s = .ok (⟨e⟩, { s with clientInstance := some ⟨e⟩ })) ∧
     (∀ l : String, envKeyUsable env = false → s.localKey = some l → l ≠ "" →
        getClient env s = .ok (⟨l⟩, { s with clientInstance := some ⟨l⟩ }))) := by
  intro hci
  constructor
  · intro e he henv
    subst he
    have hne : ¬ e = "" := by
      intro hk
      subst hk
      exact absurd henv (by decide)
    simp [getClient, hci, henv, hne]
  · intro l henv hl hne
    simp [getClient, hci, henv, hl, hne]

/-- Witness for the amended C4: with a non-blank environment key and no
cached client, acquisition builds the client from the environment key. -/
theorem env_key_precedence_when_uncached_witness :
    (⟨none, none⟩ : GatewayState).clientInstance = none ∧
    envKeyUsable (some "E") = true ∧
    getClient (some "E") ⟨none, none⟩ = .ok (⟨"E"⟩, ⟨none, some ⟨"E"⟩⟩) :=
  ⟨rfl, by decide,
    (env_key_precedence_when_uncached (some "E") ⟨none, none⟩ rfl).1 "E" rfl (by decide)⟩

/-- Claim C5: the gateway cannot hold more than one cached client (the
state type has a single `Option Client` field, mirroring the single
`clientInstance` variable), and every credential change maintains it:
saving a non-blank key overwrites local storage with the trimmed key and
eagerly replaces the cached client with one built from it, so the very
next acquisition returns exactly that client; clearing removes the stored
key and sets the cache to absent, so the next acquisition runs the full
resolution from scratch (it behaves exactly as from the empty state). -/
theorem credential_change_updates_cache (env : Option String) (s : GatewayState) (key : String) :
    jsTrim key ≠ "" →
    (saveApiKey key s =
      { localKey := some (jsTrim key), clientInstance := some ⟨jsTrim key⟩ }) ∧
    (getClient env (saveApiKey key s) = .ok (⟨jsTrim key⟩, saveApiKey key s)) ∧
    (clearApiKey s = { localKey := none, clientInstance := none }) ∧
    (getClient env (clearApiKey s) = getClient env ⟨none, none⟩) := by
  intro h
  have hkey : ¬ (key == "" || jsTrim key == "") = true := by
    simp only [Bool.or_eq_true, beq_iff_eq, not_or]
    constructor
    · intro hk
      subst hk
      exact h (by decide)
    · exact h
  refine ⟨by simp [saveApiKey, hkey], ?_, rfl, rfl⟩
  simp [saveApiKey, hkey, getClient]

/-- Witness for C5: saving `" newkey "` over an existing credential stores
the trimmed key, rebuilds the cache from it, and the next acquisition
returns it; clearing resets both fields to absent. -/
theorem credential_change_updates_cache_witness :
    jsTrim " newkey " ≠ "" ∧
    saveApiKey " newkey " ⟨some "old", some ⟨"old"⟩⟩ =
      ⟨some "newkey", some ⟨"newkey"⟩⟩ ∧
    getClient none (saveApiKey " newkey " ⟨some "old", some ⟨"old"⟩⟩) =
      .ok (⟨"newkey"⟩, saveApiKey " newkey " ⟨some "old", some ⟨"old"⟩⟩) ∧
    clearApiKey ⟨some "old", some ⟨"old"⟩⟩ = ⟨none, none⟩ := by
  have h := credential_change_updates_cache none ⟨some "old", some ⟨"old"⟩⟩ " newkey " (by decide)
  exact ⟨by decide, h.1, h.2.1, h.2.2.1⟩

/-! ### Project data model (`types.ts`, the fields the claims touch) -/

/-- One turn of the director conversation. -/
structure ChatMessage where
  role : String
  text : String
deriving DecidableEq, Repr

/-- One scene of the timeline (only the fields the export and load logic
reads: title and optional rendered image as a data URL). -/
structure TimelineFrame where
  id : String
  title : String
  image : Option String := none
deriving DecidableEq, Repr

/-- A reusable asset card (only the fields the export logic reads). -/
structure Character where
  name : String
  image : Option String := none
deriving DecidableEq, Repr

/-- The persisted project document (the fields the claims touch:
`timeline`, `references`, and the optional `directorHistory`). -/
structure ProjectData where
  timeline : List TimelineFrame
  references : List Character
  directorHistory : Option (List ChatMessage)
deriving DecidableEq, Repr

/-! ### Claim C6: filesystem-safe export naming (`handleExportZip`) -/

/-- Membership in the character class `[a-z0-9]` with the `i` flag, i.e.
`[a-zA-Z0-9]` (ASCII-only, as in the JavaScript regex). -/
def isAlnumAscii (c : Char) : Bool :=
  c.isLower || c.isUpper || c.isDigit

/-- One step of `.replace(/[^a-z0-9]/gi, '_')`. -/
def sanitizeChar (c : Char) : Char :=
  if isAlnumAscii c then c else '_'

/-- `name.replace(/[^a-z0-9]/gi, '_')`.  Modelled at code-point
granularity; the JavaScript regex walks UTF-16 units, which only changes
how many underscores an astral character contributes, not the output
alphabet. -/
def sanitizeName (s : String) : String :=
  String.mk (s.toList.map sanitizeChar)

/-- `const safeName = (char.name || "Asset").replace(/[^a-z0-9]/gi, '_')`. -/
def charImageBaseName (name : String) : String :=
  sanitizeName (if name == "" then "Asset" else name)

/-- `const safeTitle = (frame.title || ` then `Scene_${idx+1}`
`).replace(/[^a-z0-9]/gi, '_')` (the index is 0-based as in `forEach`). -/
def frameImageBaseName (idx : Nat) (title : String) : String :=
  sanitizeName (if title == "" then "Scene_" ++ toString (idx + 1) else title)

/-- `${safeName}.png` — the asset image entry name. -/
def charImageFileName (name : String) : String :=
  charImageBaseName name ++ ".png"

/-- `Scene_${idx+1}_${safeTitle}.png` — the frame image entry name. -/
def frameImageFileName (idx : Nat) (title : String) : String :=
  "Scene_" ++ toString (idx + 1) ++ "_" ++ frameImageBaseName idx title ++ ".png"

/-- The alphabet `[a-zA-Z0-9_]` the claim requires of sanitized names. -/
def isSafeNameChar (c : Char) : Bool :=
  isAlnumAscii c || c == '_'

theorem sanitizeName_safe (s : String) :
    (sanitizeName s).toList.all isSafeNameChar = true := by
  show ((String.mk (s.toList.map sanitizeChar)).toList.all isSafeNameChar) = true
  rw [List.all_eq_true]
  intro c hc
  rw [show (String.mk (s.toList.map sanitizeChar)).toList = s.toList.map sanitizeChar from rfl,
    List.mem_map] at hc
  obtain ⟨a, _, ha⟩ := hc
  subst ha
  unfold sanitizeChar isSafeNameChar
  by_cases h : isAlnumAscii a = true
  · simp [h]
  · simp [h]

/-- Claim C6: the sanitized name parts used for bundle-export file names —
the sanitized character name (with its `"Asset"` fallback) and the
sanitized frame title (with its `Scene_${idx+1}` fallback) — consist only
of characters from `[a-zA-Z0-9_]`, for every input name and title. -/
theorem export_names_filesystem_safe (name : String) (idx : Nat) (title : String) :
    (charImageBaseName name).toList.all isSafeNameChar = true ∧
    (frameImageBaseName idx title).toList.all isSafeNameChar = true :=
  ⟨sanitizeName_safe _, sanitizeName_safe _⟩

/-! ### Claim C7: atomicity of the bundle (ZIP) export (`handleExportZip`)

`handleExportZip` shows an info notification, then inside one `try` block
adds every image entry and generated artifact to the archive, awaits
`zip.generateAsync`, and only then triggers `downloadBlob` and the success
notification; the single `catch` turns any throw into one failure
notification.  The archive-construction steps are modelled as a list of
fallible entry producers (each JavaScript statement that can throw),
executed fail-fast like straight-line code under `try`. -/

/-- One file stored into the archive: a path and its content. -/
structure ZipEntry where
  path : String
  content : String
deriving DecidableEq, Repr

/-- Observable effects of the export handler, in order: notifications
(`showNotify`) and the download trigger (`downloadBlob`). -/
inductive ExportEvent where
  | notifyInfo (msg : String)
  | notifySuccess (msg : String)
  | download (fileName : String)
deriving DecidableEq, Repr

/-- Fail-fast sequencing of the archive-construction steps: the first
throw aborts the remaining steps (`try`-block semantics). -/
def buildAll : List (Except String ZipEntry) → Except String (List ZipEntry)
  | [] => .ok []
  | step :: rest =>
    match step with
    | .error e => .error e
    | .ok entry =>
      match buildAll rest with
      | .error e => .error e
      | .ok entries => .ok (entry :: entries)

/-- The control flow of `handleExportZip`: info notification, then the
`try` block (construct all entries, `await zip.generateAsync`, trigger the
download, success notification), with the `catch` mapping any throw to the
single failure notification. -/
def handleExportSteps (steps : List (Except String ZipEntry))
    (generateAsync : List ZipEntry → Except String String) (zipName : String) :
    List ExportEvent :=
  ExportEvent.notifyInfo "Generating Export Package..." ::
    match buildAll steps with
    | .ok entries =>
      match generateAsync entries with
      | .ok _blob =>
        [ExportEvent.download zipName, ExportEvent.notifySuccess "Master Package Exported"]
      | .error _ => [ExportEvent.notifyInfo "Export Failed (Check Console)"]
    | .error _ => [ExportEvent.notifyInfo "Export Failed (Check Console)"]

/-- `char.image.split(',')[1]` — the base64 payload between the first and
second comma of a data URL. -/
def afterComma (s : String) : String :=
  String.mk (((s.toList.dropWhile (fun c => !(c == ','))).drop 1).takeWhile (fun c => !(c == ',')))

/-- The artifact generators `handleExportZip` calls.  Their code lives in
`services/` files that are not part of the provided sources, so they are
abstract parameters; each can throw (`Except`).  `jsonStringify` models
`JSON.stringify(projectData, null, 2)` (total on plain data), and
`generateAsync` models `zip.generateAsync({type: "blob"})`. -/
structure ExportServices where
  jsonStringify : ProjectData → String
  generateDaVinciPythonScript : ProjectData → Except String String
  generateDaVinciXML : ProjectData → Except String String
  generateEDL : ProjectData → Except String String
  generateSRT : ProjectData → Except String String
  generateAsync : List ZipEntry → Except String String

/-- Stand-in for the fixed `README_IMPORT.txt` instruction text (its exact
content is irrelevant to the claims). -/
def readmeText : String := "VALERA PRE-PRODUCTION - MASTER EXPORT PACKAGE"

/-- The `images/` entries: one per asset with an image
(`${safeName}.png`), then one per timeline frame with an image
(`Scene_${idx+1}_${safeTitle}.png`). -/
def imageEntries (d : ProjectData) : List ZipEntry :=
  (d.references.filterMap fun ch =>
    ch.image.map fun img =>
      ZipEntry.mk ("images/" ++ charImageFileName ch.name) (afterComma img)) ++
  (d.timeline.enum.filterMap fun p =>
    p.2.image.map fun img =>
      ZipEntry.mk ("images/" ++ frameImageFileName p.1 p.2.title) (afterComma img))

/-- The archive-construction steps of `handleExportZip`, in source order:
image entries, `project_data.json`, `import_project.py`,
`timeline.fcpxml`, `timeline.edl`, `subtitles.srt`, `README_IMPORT.txt`. -/
def exportEntrySteps (svc : ExportServices) (d : ProjectData) :
    List (Except String ZipEntry) :=
  (imageEntries d).map Except.ok ++
  [Except.ok ⟨"project_data.json", svc.jsonStringify d⟩,
   (svc.generateDaVinciPythonScript d).map (ZipEntry.mk "import_project.py"),
   (svc.generateDaVinciXML d).map (ZipEntry.mk "timeline.fcpxml"),
   (svc.generateEDL d).map (ZipEntry.mk "timeline.edl"),
   (svc.generateSRT d).map (ZipEntry.mk "subtitles.srt"),
   Except.ok ⟨"README_IMPORT.txt", readmeText⟩]

/-- `Valera_Project_${new Date().toISOString().slice(0,10)}.zip`. -/
def zipFileName (dateStr : String) : String :=
  "Valera_Project_" ++ dateStr ++ ".zip"

/-- `handleExportZip` on a project document, given the exporter services
and the current date string. -/
def handleExportZip (svc : ExportServices) (d : ProjectData) (dateStr : String) :
    List ExportEvent :=
  handleExportSteps (exportEntrySteps svc d) svc.generateAsync (zipFileName dateStr)

theorem buildAll_error_of_mem (steps : List (Except String ZipEntry))
    (h : ∃ e, Except.error e ∈ steps) : ∃ e2, buildAll steps = .error e2 := by
  obtain ⟨e, he⟩ := h
  induction steps with
  | nil => cases he
  | cons step rest ih =>
    rcases List.mem_cons.mp he with h1 | h2
    · exact ⟨e, by simp [buildAll, ← h1]⟩
    · cases step with
      | error e3 => exact ⟨e3, rfl⟩
      | ok entry =>
        obtain ⟨e2, he2⟩ := ih h2
        exact ⟨e2, by simp [buildAll, he2]⟩

/-- Claim C7: the bundle export is atomic with respect to failure.  If any
archive-construction step throws, or the final archive generation throws,
the handler emits exactly the initial info notification followed by the
single failure notification — in particular no download is triggered and
no partial archive is offered.  The download event occurs exactly when
every step and the archive generation succeed, and then it follows the
completed generation and precedes the success notification. -/
theorem zip_export_atomic (steps : List (Except String ZipEntry))
    (generateAsync : List ZipEntry → Except String String) (zipName : String) :
    ((∃ e, Except.error e ∈ steps) →
      handleExportSteps steps generateAsync zipName =
        [ExportEvent.notifyInfo "Generating Export Package...",
         ExportEvent.notifyInfo "Export Failed (Check Console)"]) ∧
    (∀ entries e, buildAll steps = .ok entries → generateAsync entries = .error e →
      handleExportSteps steps generateAsync zipName =
        [ExportEvent.notifyInfo "Generating Export Package...",
         ExportEvent.notifyInfo "Export Failed (Check Console)"]) ∧
    (∀ entries blob, buildAll steps = .ok entries → generateAsync entries = .ok blob →
      handleExportSteps steps generateAsync zipName =
        [ExportEvent.notifyInfo "Generating Export Package...",
         ExportEvent.download zipName,
         ExportEvent.notifySuccess "Master Package Exported"]) := by
  refine ⟨?_, ?_, ?_⟩
  · intro h
    obtain ⟨e2, he2⟩ := buildAll_error_of_mem steps h
    simp [handleExportSteps, he2]
  · intro entries e hb hg
    simp [handleExportSteps, hb, hg]
  · intro entries blob hb hg
    simp [handleExportSteps, hb, hg]

/-- Witness for C7: a failing Python-script generator aborts the whole
export with the single failure notification and no download, while the
all-success instance downloads the archive. -/
theorem zip_export_atomic_witness :
    (∃ e, Except.error e ∈ [Except.error "py generator threw",
        (Except.ok ⟨"subtitles.srt", "1"⟩ : Except String ZipEntry)]) ∧
    handleExportSteps
        [Except.error "py generator threw",
         (Except.ok ⟨"subtitles.srt", "1"⟩ : Except String ZipEntry)]
        (fun _ => .ok "blob") "Valera_Project_2026-10-11.zip" =
      [ExportEvent.notifyInfo "Generating Export Package...",
       ExportEvent.notifyInfo "Export Failed (Check Console)"] :=
  ⟨⟨"py generator threw", List.mem_cons_self _ _⟩,
    (zip_export_atomic _ _ _).1 ⟨"py generator threw", List.mem_cons_self _ _⟩⟩

/-! ### Claim C8: image-response scan of `generateImage`

After the retried network call returns, `generateImage` runs
`if (response.candidates && response.candidates[0].content &&
response.candidates[0].content.parts) { for (const part of ...) if
(part.inlineData && part.inlineData.data) return ...; }` and then
`throw new Error("No image data returned from Gemini.")`.  The surrounding
`catch` rewrites 429-errors into a quota message and rethrows everything
else. -/

/-- `inlineData` of a response part. -/
structure InlineData where
  mimeType : Option String := none
  data : Option String := none
deriving DecidableEq, Repr

/-- One part of a response candidate's content. -/
structure ResponsePart where
  inlineData : Option InlineData := none
deriving DecidableEq, Repr

/-- The `content` of a response candidate. -/
structure ResponseContent where
  parts : Option (List ResponsePart) := none
deriving DecidableEq, Repr

/-- One candidate of a generation response. -/
structure Candidate where
  content : Option ResponseContent := none
deriving DecidableEq, Repr

/-- A Gemini generation response, as far as the app reads it: the optional
candidate list and the convenience `text` accessor. -/
structure GenResponse where
  candidates : Option (List Candidate) := none
  text : Option String := none
deriving DecidableEq, Repr

/-- How `generateImage` can fail after the network call. -/
inductive ScanFailure where
  /-- `throw new Error("No image data returned from Gemini.")`. -/
  | noImage
  /-- The `TypeError` thrown by `response.candidates[0].content` when
  `candidates` is present but an empty array (`candidates[0]` is
  `undefined`); its message is engine-specific. -/
  | undefinedAccess
deriving DecidableEq, Repr

/-- The error surface of `generateImage`: a propagated upstream error, a
scan failure, or the rewritten quota message `"API Quota Limit (429).
Please wait a minute and try again."`. -/
inductive ImageError where
  | api (e : ApiError)
  | scan (f : ScanFailure)
  | quota
deriving DecidableEq, Repr

/-- `part.inlineData && part.inlineData.data` — the payload if present and
truthy (a present empty string is falsy and skipped). -/
def partInlinePayload (p : ResponsePart) : Option String :=
  match p.inlineData with
  | some d =>
    match d.data with
    | some payload => if payload == "" then none else some payload
    | none => none
  | none => none

/-- The scan of the response for the first inline image payload, including
the guard chain's JavaScript semantics on an empty `candidates` array. -/
def scanForImage (r : GenResponse) : Except ImageError String :=
  match r.candidates with
  | some (c0 :: _) =>
    match c0.content with
    | some content =>
      match content.parts with
      | some parts =>
        match parts.findSome? partInlinePayload with
        | some payload => .ok ("data:image/png;base64," ++ payload)
        | none => .error (.scan .noImage)
      | none => .error (.scan .noImage)
    | none => .error (.scan .noImage)
  | some [] => .error (.scan .undefinedAccess)
  | none => .error (.scan .noImage)

/-- The `catch` of `generateImage`: a 429 (by message or status) becomes
the quota error; everything else — including both scan failures — is
rethrown unchanged. -/
def imageCatch : ImageError → ImageError
  | .api e => if isQuota e then .quota else .api e
  | e => e

/-- `generateImage` from the point the request parts are built: the
network call is retried with the default policy, the successful response
is scanned for the first inline image payload, and errors pass through the
`catch`.  The wait list of the retry executor is returned alongside so the
number of attempts is observable. -/
def generateImage (op : Nat → Outcome GenResponse) :
    Except ImageError String × List Nat :=
  let attempt := retryOperation op 3 2000 0
  let scanned : Except ImageError String :=
    match attempt.1 with
    | .ok response => scanForImage response
    | .error e => .error (.api e)
  (match scanned with
   | .ok url => .ok url
   | .error e => .error (imageCatch e), attempt.2)

theorem findSome?_none_of_all {α β : Type} (f : α → Option β) (l : List α)
    (h : ∀ a ∈ l, f a = none) : l.findSome? f = none := by
  induction l with
  | nil => rfl
  | cons a rest ih =>
    have ha : f a = none := h a (List.mem_cons_self _ _)
    simp only [List.findSome?, ha]
    exact ih fun b hb => h b (List.mem_cons_of_mem _ hb)

/-- Counterexample to claim C8 as stated: a response whose `candidates`
field is present but an empty array contains no inline image data in any
candidate part, yet the call does not fail with the "no image data
returned" error — `response.candidates[0].content` throws a `TypeError`
first (the guard `response.candidates &&` does not protect against an
empty array, which is truthy in JavaScript). -/
theorem no_image_error_cex :
    generateImage (fun _ => .ok { candidates := some [] }) =
      (.error (.scan .undefinedAccess), []) ∧
    ImageError.scan .undefinedAccess ≠ ImageError.scan .noImage := by
  refine ⟨?_, by decide⟩
  simp [generateImage, retryOperation, scanForImage, imageCatch]

/-- Claim C8 (amended): for a call whose network request succeeds, if the
`candidates` field is absent, or the *first* candidate carries no truthy
inline payload (the scan never looks at later candidates), and the
candidate list is not the present-but-empty array, the call fails with
the hard error `"No image data returned from Gemini."`; the `catch`
leaves this error unchanged, and since it is raised after the retry
wrapper the wait list is empty — no retry is triggered.  (When
`candidates` is present but empty the failure is instead a `TypeError`,
per the counterexample.) -/
theorem no_image_data_hard_failure (op : Nat → Outcome GenResponse) (r : GenResponse) :
    op 0 = .ok r →
    (∀ c0 rest, r.candidates = some (c0 :: rest) →
      ∀ content, c0.content = some content →
      ∀ parts, content.parts = some parts →
      ∀ p ∈ parts, partInlinePayload p = none) →
    r.candidates ≠ some [] →
    generateImage op = (.error (.scan .noImage), []) := by
  intro h0 hnone hne
  have hr : retryOperation op 3 2000 0 = (.ok r, []) := by
    simp [retryOperation, h0]
  have hscan : scanForImage r = .error (.scan .noImage) := by
    rcases hc : r.candidates with _ | (_ | ⟨c0, rest⟩)
    · simp [scanForImage, hc]
    · exact absurd hc hne
    · rcases hct : c0.content with _ | content
      · simp [scanForImage, hc, hct]
      · rcases hp : content.parts with _ | parts
        · simp [scanForImage, hc, hct, hp]
        · have hf : parts.findSome? partInlinePayload = none := by
            apply findSome?_none_of_all
            intro p hp2
            exact hnone c0 rest hc content hct parts hp p hp2
          simp [scanForImage, hc, hct, hp, hf]
  simp [generateImage, hr, hscan, imageCatch]

/-- Witness for the amended C8: a successful response with an absent
`candidates` field fails with the no-image error after a single attempt. -/
theorem no_image_data_hard_failure_witness :
    ((fun _ => .ok ({} : GenResponse)) : Nat → Outcome GenResponse) 0 =
      .ok ({} : GenResponse) ∧
    generateImage (fun _ => .ok ({} : GenResponse)) = (.error (.scan .noImage), []) :=
  ⟨rfl, no_image_data_hard_failure (fun _ => .ok {}) {} rfl
    (by intro c0 rest h; cases h) (by simp)⟩

/-! ### Claim C9: boot-time demo-seed normalization (`App.tsx` init
effect) -/

/-- Modelled from the spec: `INITIAL_VALERA_MESSAGES` is defined in
`constants.ts`, which is not among the provided sources; the spec
describes it as "a fixed set of introductory assistant messages".  Its
exact contents do not affect the theorems below. -/
def INITIAL_VALERA_MESSAGES : List ChatMessage :=
  [⟨"model", "Introductory assistant greeting from Valera."⟩]

/-- `const isDemoProject = data.timeline.length === 1 &&
data.timeline[0].title === "Demo Scene"`. -/
def isDemoSeed (d : ProjectData) : Bool :=
  d.timeline.length == 1 &&
    (match d.timeline with
     | frame :: _ => frame.title == "Demo Scene"
     | [] => false)

/-- `const hasEmptyHistory = !data.directorHistory ||
data.directorHistory.length === 0`. -/
def hasEmptyHistory (d : ProjectData) : Bool :=
  match d.directorHistory with
  | none => true
  | some h => h.length == 0

/-- The load-time migration: `if (isDemoProject || hasEmptyHistory)
data.directorHistory = INITIAL_VALERA_MESSAGES`. -/
def normalizeLoadedProject (d : ProjectData) : ProjectData :=
  if isDemoSeed d || hasEmptyHistory d then
    { d with directorHistory := some INITIAL_VALERA_MESSAGES }
  else d

/-- Claim C9: loading a placeholder demo-seed document (single scene
titled exactly "Demo Scene") or one with empty chat history replaces the
chat history with the fixed introductory assistant messages, and the
normalization is idempotent: applying it twice equals applying it once,
so re-running it on an already-normalized document does not alter the
document. -/
theorem demo_seed_normalization_idempotent (d : ProjectData) :
    ((isDemoSeed d || hasEmptyHistory d) = true →
      (normalizeLoadedProject d).directorHistory = some INITIAL_VALERA_MESSAGES) ∧
    normalizeLoadedProject (normalizeLoadedProject d) = normalizeLoadedProject d := by
  constructor
  · intro h
    simp [normalizeLoadedProject, h]
  · by_cases h : (isDemoSeed d || hasEmptyHistory d) = true
    · have h1 : normalizeLoadedProject d =
          { d with directorHistory := some INITIAL_VALERA_MESSAGES } := by
        simp [normalizeLoadedProject, h]
      rw [h1]
      by_cases h2 : (isDemoSeed { d with directorHistory := some INITIAL_VALERA_MESSAGES } ||
          hasEmptyHistory { d with directorHistory := some INITIAL_VALERA_MESSAGES }) = true
      · simp [normalizeLoadedProject, h2]
      · simp only [Bool.not_eq_true] at h2
        simp [normalizeLoadedProject, h2]
    · simp only [Bool.not_eq_true] at h
      simp [normalizeLoadedProject, h]

/-- Witness for C9: a demo-seed document (one scene titled "Demo Scene",
non-empty history) gets the introductory history, and renormalizing is a
no-op. -/
theorem demo_seed_normalization_idempotent_witness :
    (isDemoSeed ⟨[⟨"1", "Demo Scene", none⟩], [], some [⟨"user", "hi"⟩]⟩ ||
      hasEmptyHistory ⟨[⟨"1", "Demo Scene", none⟩], [], some [⟨"user", "hi"⟩]⟩) = true ∧
    (normalizeLoadedProject ⟨[⟨"1", "Demo Scene", none⟩], [], some [⟨"user", "hi"⟩]⟩).directorHistory =
      some INITIAL_VALERA_MESSAGES ∧
    normalizeLoadedProject (normalizeLoadedProject
        ⟨[⟨"1", "Demo Scene", none⟩], [], some [⟨"user", "hi"⟩]⟩) =
      normalizeLoadedProject ⟨[⟨"1", "Demo Scene", none⟩], [], some [⟨"user", "hi"⟩]⟩ := by
  have h := demo_seed_normalization_idempotent
    ⟨[⟨"1", "Demo Scene", none⟩], [], some [⟨"user", "hi"⟩]⟩
  exact ⟨by decide, h.1 (by decide), h.2⟩

/-! ### Claim C10: `enhancePrompt` fallback behavior

`enhancePrompt` wraps everything in `try { ... } catch { return
userInput; }`.  On success it computes `fullText = response.text ||
userInput`, matches `fullText` against
`/Refined Prompt:\s*([\s\S]+?)(?=\s*(?:(puzzle emoji)|Elements Expanded:|$))/i`,
returns the trimmed capture when the match exists (the capture is always
non-empty, so `match[1]` is always truthy), and otherwise returns
`fullText`.  The regex is embedded below with JavaScript semantics:
leftmost literal occurrence (case-insensitive), greedy `\s*` with
backtracking, lazy non-empty capture, and a lookahead that skips
whitespace and then requires the puzzle-emoji token, the
`Elements Expanded:` token, or end of string. -/

/-- Case-insensitive prefix test (the `i` flag; non-letters compare
unchanged). -/
def startsWithCI : List Char → List Char → Bool
  | [], _ => true
  | _ :: _, [] => false
  | a :: ls, b :: rs => a.toLower == b.toLower && startsWithCI ls rs

/-- Remainder of the haystack after the first case-insensitive occurrence
of the literal, if any — the regex engine's leftmost-match rule.  (When
the literal sits at the very end, the empty remainder is returned and the
capture below fails, matching the engine, which also finds no later
occurrence in that case.) -/
def findLiteralCI (lit : List Char) : List Char → Option (List Char)
  | [] => none
  | c :: cs =>
    if startsWithCI lit (c :: cs) then some ((c :: cs).drop lit.length)
    else findLiteralCI lit cs

/-- The lookahead `(?=\s*(?:(puzzle emoji)|Elements Expanded:|$))` at a
given suffix: skip the whitespace run; succeed at end of string or at one
of the two tokens. -/
def lookaheadOK (rest : List Char) : Bool :=
  let afterWS := rest.dropWhile jsWhitespace
  afterWS.isEmpty || startsWithCI "🧩".toList afterWS ||
    startsWithCI "elements expanded:".toList afterWS

/-- The lazy capture `([\s\S]+?)`: the shortest non-empty prefix whose
suffix satisfies the lookahead. -/
def tryCaptures : List Char → Option (List Char)
  | [] => none
  | c :: cs => if lookaheadOK cs then some [c] else (tryCaptures cs).map (c :: ·)

/-- Backtracking over the greedy `\s*` between the literal and the
capture: widest whitespace skip first. -/
def findCapture (rest : List Char) : Option (List Char) :=
  let wsMax := (rest.takeWhile jsWhitespace).length
  (List.range (wsMax + 1)).findSome? fun k => tryCaptures (rest.drop (wsMax - k))

/-- The literal `Refined Prompt:` in its case-folded form. -/
def refinedLit : List Char := "refined prompt:".toList

/-- `fullText.match(/Refined Prompt:\s*([\s\S]+?)(?=...)/i)` — the first
capture group, when the regex matches. -/
def extractRefined (fullText : String) : Option String :=
  match findLiteralCI refinedLit fullText.toList with
  | some rest => (findCapture rest).map String.mk
  | none => none

/-- Does the text contain a case-insensitive occurrence of
`Refined Prompt:`? -/
def containsRefinedMarker (s : String) : Bool :=
  (findLiteralCI refinedLit s.toList).isSome

/-- `enhancePrompt(userInput, ...)` from the call structure: `getClient()`
and the retried model call happen inside the `try`; any throw is caught
and the original input returned.  On success, `fullText = response.text ||
userInput` is matched against the refinement regex; a match returns the
trimmed capture (always truthy since the capture is non-empty), otherwise
`fullText` is returned.  The function is total — no exception reaches the
caller. -/
def enhancePrompt (env : Option String) (s : GatewayState) (userInput : String)
    (op : Nat → Outcome GenResponse) : String :=
  match getClient env s with
  | .error _ => userInput
  | .ok _ =>
    match (retryOperation op 3 2000 0).1 with
    | .error _ => userInput
    | .ok response =>
      let fullText :=
        match response.text with
        | some t => if t == "" then userInput else t
        | none => userInput
      match extractRefined fullText with
      | some captured => jsTrim captured
      | none => fullText

/-- Counterexample to claim C10 as stated: on a success with an empty
reply, the fallback `fullText = userInput` is still run through the
`Refined Prompt:` extraction, so an input that itself contains the marker
is returned only partially, not unchanged: with a valid credential and a
model reply of `""`, input `"Refined Prompt: hi"` yields `"hi"`. -/
theorem enhance_prompt_cex :
    enhancePrompt (some "k") ⟨none, none⟩ "Refined Prompt: hi"
        (fun _ => Outcome.ok { text := some "" }) = "hi" ∧
    ("hi" : String) ≠ "Refined Prompt: hi" := by
  have hr : (retryOperation (fun _ => Outcome.ok ({ text := some "" } : GenResponse)) 3 2000 0).1
      = .ok { text := some "" } := by
    simp [retryOperation]
  refine ⟨?_, by decide⟩
  unfold enhancePrompt
  rw [hr]
  rfl

/-- Claim C10 (amended): `enhancePrompt` never propagates a failure: if
`getClient` throws (missing credential) the original input is returned;
if the retried model call fails (after retry exhaustion or with a
non-retryable error) the original input is returned; and on a success
with an empty reply (absent or empty `response.text`) the original input
is returned verbatim provided it does not itself contain a
case-insensitive `Refined Prompt:` marker (otherwise the extraction may
return a substring of it, per the counterexample). -/
theorem enhance_prompt_fallback (env : Option String) (s : GatewayState)
    (userInput : String) (op : Nat → Outcome GenResponse) :
    (∀ msg, getClient env s = .error msg →
      enhancePrompt env s userInput op = userInput) ∧
    (∀ e, (retryOperation op 3 2000 0).1 = .error e →
      enhancePrompt env s userInput op = userInput) ∧
    (∀ r, (retryOperation op 3 2000 0).1 = .ok r →
      (r.text = none ∨ r.text = some "") →
      containsRefinedMarker userInput = false →
      enhancePrompt env s userInput op = userInput) := by
  refine ⟨?_, ?_, ?_⟩
  · intro msg h
    simp [enhancePrompt, h]
  · intro e h
    cases hg : getClient env s with
    | error m => simp [enhancePrompt, hg]
    | ok c => simp [enhancePrompt, hg, h]
  · intro r h ht hm
    cases hg : getClient env s with
    | error m => simp [enhancePrompt, hg]
    | ok c =>
      have hext : extractRefined userInput = none := by
        unfold containsRefinedMarker at hm
        unfold extractRefined
        cases hf : findLiteralCI refinedLit userInput.toList with
        | none => rfl
        | some rest => rw [hf] at hm; simp at hm
      rcases ht with ht | ht
      · simp [enhancePrompt, hg, h, ht, hext]
      · simp [enhancePrompt, hg, h, ht, hext]

/-- Witness for the amended C10: with no credential at all, enhancement
returns the user's input unchanged. -/
theorem enhance_prompt_fallback_witness :
    getClient none ⟨none, none⟩ = .error missingKeyMsg ∧
    enhancePrompt none ⟨none, none⟩ "a cat" (fun _ => Outcome.ok {}) = "a cat" :=
  ⟨rfl, (enhance_prompt_fallback none ⟨none, none⟩ "a cat"
    (fun _ => Outcome.ok {})).1 missingKeyMsg rfl⟩

end Valera
